import Mathlib

/-!
Verification of the order-flow simulator in `src/tools/exchange/sim.py`
(`madvectr/mtrader`).

Shallow embedding conventions:
* Python floats are modelled as exact rationals (`ℚ`); `round` is Python 3's
  banker's rounding (`pyRound`), `int()` is truncation toward zero (`pyInt`).
* `numpy.random` is modelled as an oracle `Np`: a bundle of streams indexed by
  the number of draws made so far.  Every `np.random.*` call consumes one
  position.  `np.random.exponential(scale)` is numpy's documented
  `scale * standard_exponential()`; `np.random.normal(0,1)` and
  `np.random.lognormal(mu, sigma)` are taken directly from their streams;
  `np.random.choice(lst, ...)` selects the element at an oracle-chosen index
  (`% lst.length`; every element of a nonempty list is reachable, and all the
  weights in the source are positive, so this is support-exact).
  `np.sqrt` / `np.log` are oracle functions `ℚ → ℚ` since their exact values
  are irrational.
* `uuid.uuid4()` is a second, independent stream `u : ℕ → ℕ` of id tokens; it
  is *not* part of `Np` because `uuid4` draws from the OS entropy pool and is
  unaffected by seeding numpy's generator.
* Python attributes that the source creates outside `__init__`
  (`Instrument.tick_size`, set in `next_order`) or never creates at all
  (`Instrument.tick_count`, incremented by `Instrument.tick` but never
  initialized) are `Option`-valued; reading them while `none` is Python's
  `AttributeError`, modelled with `Except PyErr`.
-/

namespace MTrader

/-- The four order types of `order_types = ['LIMIT','MARKET','CANCEL','MODIFY']`. -/
inductive OrdType where
  | LIMIT
  | MARKET
  | CANCEL
  | MODIFY
deriving DecidableEq

/-- `order_action = ['BUY', 'SELL']`. -/
inductive OrdAction where
  | BUY
  | SELL
deriving DecidableEq

/-- Python exceptions that the embedded code can raise. -/
inductive PyErr where
  | attributeError
  | nameError
deriving DecidableEq

/-- Python 3 `round` to an integer: round-half-to-even. -/
def pyRound (q : ℚ) : ℤ :=
  let f := ⌊q⌋
  let frac := q - f
  if frac < 1/2 then f
  else if 1/2 < frac then f + 1
  else if 2 ∣ f then f else f + 1

/-- Python `int()` on a float: truncation toward zero. -/
def pyInt (q : ℚ) : ℤ :=
  if 0 ≤ q then ⌊q⌋ else ⌈q⌉

/-- Python `max(a, b)` on numbers (kernel-reducible form). -/
def pyMax (a b : ℚ) : ℚ :=
  if a ≤ b then b else a

/-- Python `min(a, b)` on numbers (kernel-reducible form). -/
def pyMin (a b : ℚ) : ℚ :=
  if a ≤ b then a else b

/-- The `numpy` oracle: deterministic functions of the seeded generator state.
`normal`, `expStd`, `lognorm` and `choice` are streams indexed by the number of
draws consumed so far; `sqrt` and `log` model `np.sqrt` / `np.log`. -/
structure Np where
  sqrt : ℚ → ℚ
  log : ℚ → ℚ
  normal : ℕ → ℚ
  expStd : ℕ → ℚ
  lognorm : ℕ → ℚ → ℚ → ℚ
  choice : ℕ → ℕ

/-- `np.random.exponential(scale)` = `scale * standard_exponential()` (numpy's
scale parameterization: the argument is the mean `β = 1/λ`, not the rate). -/
def npExponential (np : Np) (k : ℕ) (scale : ℚ) : ℚ :=
  scale * np.expStd k

/-- `np.random.choice(order_types, p=probabilities)` : any of the four types
(all weights positive). -/
def drawOrdType (n : ℕ) : OrdType :=
  [OrdType.LIMIT, OrdType.MARKET, OrdType.CANCEL, OrdType.MODIFY].getD (n % 4) OrdType.LIMIT

/-- `np.random.choice(order_action, p=[0.6, 0.4])` : BUY or SELL. -/
def drawAction (n : ℕ) : OrdAction :=
  [OrdAction.BUY, OrdAction.SELL].getD (n % 2) OrdAction.BUY

/-- The `Order` class.  All seven attributes are always assigned by
`Order.__init__`; the ones that `next_order` leaves at `None` are `Option`s.
Ids are the tokens of the uuid stream. -/
structure Order where
  id : ℕ
  ref_id : Option ℕ
  symbol : String
  type : OrdType
  price : Option ℚ
  qty : Option ℚ
  action : Option OrdAction
deriving DecidableEq

/-- The `Instrument` class.  `tick_size` is only assigned inside `next_order`
(line 109) and `tick_count` is never assigned anywhere, so both start absent.
`history` is the insertion-ordered dict `id -> Order`. -/
structure Instrument where
  curr_price : ℚ
  symbol : String
  volatility : ℚ
  drift : ℚ
  history : List (ℕ × Order)
  tick_size : Option ℚ
  tick_count : Option ℤ
deriving DecidableEq

/-- `Instrument.__init__(symbol, init_price, volatility=1.0, drift=0.01)`:
pure field assignment, no validation. -/
def Instrument.init (symbol : String) (init_price : ℚ) (volatility : ℚ) (drift : ℚ) :
    Instrument :=
  { curr_price := init_price
    symbol := symbol
    volatility := volatility
    drift := drift
    history := []
    tick_size := none
    tick_count := none }

/-- Python dict assignment `d[key] = o`: replace in place if the key is
present, else append (insertion order preserved). -/
def dictInsert (h : List (ℕ × Order)) (key : ℕ) (o : Order) : List (ℕ × Order) :=
  if h.any (fun p => p.1 == key) then
    h.map (fun p => if p.1 == key then (key, o) else p)
  else
    h ++ [(key, o)]

/-- `Instrument.update_price(tick_size, tick_time)` (lines 73-79): Brownian
step, then quantize `round(new_price/tick_size) * tick_size`.  Consumes one
normal draw. -/
def update_price (np : Np) (k : ℕ) (i : Instrument) (tick_size tick_time : ℚ) :
    Instrument × ℕ :=
  let scaled_vol := i.volatility * np.sqrt tick_time
  let scaled_drift := i.drift * tick_time
  let price_change := np.normal k * scaled_vol + scaled_drift
  let new_price := i.curr_price + price_change
  ({ i with curr_price := (pyRound (new_price / tick_size) : ℚ) * tick_size }, k + 1)

/-- `Instrument.generate_limit_price(action, volatility_scale=1.0)`
(lines 81-106).  Reads `self.tick_size`, which exists only after `next_order`
has stored it: `none` means Python's `AttributeError`.  Consumes one
exponential draw. -/
def generate_limit_price (np : Np) (k : ℕ) (i : Instrument) (action : OrdAction)
    (volatility_scale : ℚ) : Option (ℚ × ℕ) :=
  i.tick_size.map (fun ts =>
    let base_spread := pyMax (1/10000) (i.volatility * volatility_scale)
    let distance := npExponential np k base_spread
    let price :=
      if action = OrdAction.BUY then i.curr_price * (1 - distance)
      else i.curr_price * (1 + distance)
    ((pyRound (price / ts) : ℚ) * ts, k + 1))

/-- `Instrument.generate_order_size(ord_type, base_size=100)` (lines 159-170).
Consumes one lognormal draw; `max(1, min(size, base_size * 10))` mixes the
truncated integer with the float bound, so the result is a rational. -/
def generate_order_size (np : Np) (k : ℕ) (ord_type : OrdType) (base_size : ℚ) :
    ℚ × ℕ :=
  let mu := if ord_type = OrdType.MARKET then np.log base_size + 1/2 else np.log base_size
  let sigma : ℚ := if ord_type = OrdType.MARKET then 4/5 else 6/5
  let size : ℤ := pyInt (np.lognorm k mu sigma)
  (pyMax 1 (pyMin (size : ℚ) (base_size * 10)), k + 1)

/-- Lines 139-153 of `next_order`: build the `Order` with a fresh uuid and add
it to the history unless it is a CANCEL. -/
def finishOrder (u : ℕ → ℕ) (c : ℕ) (symbol : String) (t : OrdType)
    (price qty : Option ℚ) (action : Option OrdAction) (ref : Option ℕ)
    (i : Instrument) (k : ℕ) : Order × Instrument × ℕ × ℕ :=
  let o : Order :=
    { id := u c, ref_id := ref, symbol := symbol, type := t,
      price := price, qty := qty, action := action }
  let i' := if t = OrdType.CANCEL then i else { i with history := dictInsert i.history o.id o }
  (o, i', k, c + 1)

/-- `Instrument.next_order(tick_size, tick_time)` (lines 108-153).
`k` is the numpy stream position, `c` the uuid stream position; the result is
`(order, new instrument state, new k, new c)`. -/
def next_order (np : Np) (u : ℕ → ℕ) (i0 : Instrument) (k c : ℕ)
    (tick_size tick_time : ℚ) : Order × Instrument × ℕ × ℕ :=
  let i := { i0 with tick_size := some tick_size }
  let ord_symbol := i.symbol
  let td : OrdType × ℕ :=
    if i.history.isEmpty then (OrdType.LIMIT, k)
    else (drawOrdType (np.choice k), k + 1)
  let ord_type := td.1
  let k1 := td.2
  if ord_type = OrdType.LIMIT then
    let up := update_price np k1 i tick_size tick_time
    let ord_action := drawAction (np.choice up.2)
    let lp := (generate_limit_price np (up.2 + 1) up.1 ord_action 1).getD (0, up.2 + 2)
    let sz := generate_order_size np lp.2 OrdType.LIMIT 100
    finishOrder u c ord_symbol OrdType.LIMIT (some lp.1) (some sz.1) (some ord_action)
      none up.1 sz.2
  else if ord_type = OrdType.MARKET then
    let sz := generate_order_size np k1 OrdType.MARKET 100
    let ord_action := drawAction (np.choice sz.2)
    finishOrder u c ord_symbol OrdType.MARKET none (some sz.1) (some ord_action)
      none i (sz.2 + 1)
  else if ord_type = OrdType.CANCEL ∧ i.history ≠ [] then
    let keys := i.history.map Prod.fst
    let ref := keys.getD (np.choice k1 % keys.length) 0
    finishOrder u c ord_symbol OrdType.CANCEL none none none (some ref) i (k1 + 1)
  else if ord_type = OrdType.MODIFY ∧ i.history ≠ [] then
    let keys := i.history.map Prod.fst
    let ref := keys.getD (np.choice k1 % keys.length) 0
    let ord_action := drawAction (np.choice (k1 + 1))
    let lp := (generate_limit_price np (k1 + 2) i ord_action 1).getD (0, k1 + 3)
    let sz := generate_order_size np lp.2 OrdType.MODIFY 100
    finishOrder u c ord_symbol OrdType.MODIFY (some lp.1) (some sz.1) (some ord_action)
      (some ref) i sz.2
  else
    finishOrder u c ord_symbol ord_type none none none none i k1

/-- `Instrument.tick(tick_size, tick_time)` (lines 155-157):
`self.tick_count += 1` reads the never-initialized `tick_count` attribute, so
it raises `AttributeError` whenever the attribute is still absent. -/
def Instrument.tick (np : Np) (u : ℕ → ℕ) (i : Instrument) (k c : ℕ)
    (tick_size tick_time : ℚ) : Except PyErr (Order × Instrument × ℕ × ℕ) :=
  match i.tick_count with
  | none => .error PyErr.attributeError
  | some tc =>
      .ok (next_order np u { i with tick_count := some (tc + 1) } k c tick_size tick_time)

/-- The `Exchange` class state. -/
structure Exchange where
  instruments : List Instrument
  tick_size : ℚ
  tick_time : ℚ
  tick_count : ℤ
  history : List (ℕ × Order)
deriving DecidableEq

/-- `Exchange.__init__(instruments)` (lines 176-181): stores the list, fixes
`tick_size = tick_time = 0.01`; no validation of any kind. -/
def Exchange.init (instruments : List Instrument) : Exchange :=
  { instruments := instruments
    tick_size := 1/100
    tick_time := 1/100
    tick_count := 0
    history := [] }

/-- The `for instrument in self.instruments` loop of `Exchange.tick`
(lines 184-186).  Carries the loop variable `order` as an `Option` (unbound
until the first iteration). -/
def exchangeTickGo (np : Np) (u : ℕ → ℕ) (ts tt : ℚ) :
    List Instrument → ℕ → ℕ → List (ℕ × Order) → Option Order → List Instrument →
    Except PyErr (Option Order × List Instrument × List (ℕ × Order) × ℕ × ℕ)
  | [], k, c, hist, last, acc => .ok (last, acc.reverse, hist, k, c)
  | inst :: rest, k, c, hist, _, acc =>
    match Instrument.tick np u inst k c ts tt with
    | .error e => .error e
    | .ok (o, inst', k', c') =>
        exchangeTickGo np u ts tt rest k' c' (dictInsert hist o.id o) (some o) (inst' :: acc)

/-- `Exchange.tick()` (lines 183-187): ticks every instrument in registration
order, records each order in the exchange history, and then executes
`return order` — the single order of the *last* instrument (a `NameError` if
the instrument list is empty, since the loop variable was never bound). -/
def Exchange.tick (np : Np) (u : ℕ → ℕ) (e : Exchange) (k c : ℕ) :
    Except PyErr (Order × Exchange × ℕ × ℕ) :=
  match exchangeTickGo np u e.tick_size e.tick_time e.instruments k c e.history none [] with
  | .error err => .error err
  | .ok (none, _, _, _, _) => .error PyErr.nameError
  | .ok (some o, insts, hist, k', c') =>
      .ok (o, { e with instruments := insts, history := hist }, k', c')

/-- Iterate `next_order` (the order-generation engine) `n` times on one
instrument, collecting the emitted orders in chronological order. -/
def run (np : Np) (u : ℕ → ℕ) : ℕ → Instrument → ℕ → ℕ → ℚ → ℚ →
    List Order × Instrument × ℕ × ℕ
  | 0, i, k, c, _, _ => ([], i, k, c)
  | n + 1, i, k, c, ts, tt =>
    let s := next_order np u i k c ts tt
    let r := run np u n s.2.1 s.2.2.1 s.2.2.2 ts tt
    (s.1 :: r.1, r.2)

/-- JSON values occurring in `Order.__str__`'s dict. -/
inductive JVal where
  | str (s : String)
  | num (q : ℚ)
  | null
deriving DecidableEq

/-- The serialized name of an order type. -/
def typeName : OrdType → String
  | OrdType.LIMIT => "LIMIT"
  | OrdType.MARKET => "MARKET"
  | OrdType.CANCEL => "CANCEL"
  | OrdType.MODIFY => "MODIFY"

/-- The serialized name of an action. -/
def actionName : OrdAction → String
  | OrdAction.BUY => "BUY"
  | OrdAction.SELL => "SELL"

/-- An optional rational serialized into the dict (`None` becomes JSON null). -/
def jNum : Option ℚ → JVal
  | none => JVal.null
  | some q => JVal.num q

/-- An optional action serialized into the dict. -/
def jAction : Option OrdAction → JVal
  | none => JVal.null
  | some a => JVal.str (actionName a)

/-- An optional id serialized into the dict. -/
def jRef : Option ℕ → JVal
  | none => JVal.null
  | some r => JVal.num (r : ℚ)

/-- `Order.__str__` (lines 39-60): the key/value pairs of `order_dict` in
insertion order.  The base dict always carries `id`, `ref_id`, `symbol`,
`type`; LIMIT adds `price`, `qty`, `action`; MARKET adds `qty`, `action`;
MODIFY adds `price`, `qty`; CANCEL adds nothing. -/
def serializeOrder (o : Order) : List (String × JVal) :=
  let base := [("id", JVal.num (o.id : ℚ)), ("ref_id", jRef o.ref_id),
               ("symbol", JVal.str o.symbol), ("type", JVal.str (typeName o.type))]
  if o.type = OrdType.LIMIT then
    base ++ [("price", jNum o.price), ("qty", jNum o.qty), ("action", jAction o.action)]
  else if o.type = OrdType.MARKET then
    base ++ [("qty", jNum o.qty), ("action", jAction o.action)]
  else if o.type = OrdType.MODIFY then
    base ++ [("price", jNum o.price), ("qty", jNum o.qty)]
  else
    base

/-- Whether a serialized value is JSON null. -/
def isNull : JVal → Bool
  | JVal.null => true
  | _ => false

/-- Whether the serialized dict carries `key` with a non-null value. -/
def hasKeyNonNull (l : List (String × JVal)) (key : String) : Bool :=
  l.any (fun p => p.1 == key && !(isNull p.2))

/-- Population pattern of the four optional order fields, in the fixed order
`(ref_id, price, qty, action)`, read off the `Order` record. -/
def recordPopulated (o : Order) : Bool × Bool × Bool × Bool :=
  (o.ref_id.isSome, o.price.isSome, o.qty.isSome, o.action.isSome)

/-- Population pattern `(ref_id, price, qty, action)` of the serialized form:
keys present with a non-null value. -/
def serialPopulated (o : Order) : Bool × Bool × Bool × Bool :=
  let l := serializeOrder o
  (hasKeyNonNull l "ref_id", hasKeyNonNull l "price",
   hasKeyNonNull l "qty", hasKeyNonNull l "action")

/-- The field-population table of spec §6, written from the spec's words:
for each type, which of `(ref_id, price, qty, action)` are populated. -/
def specTable : OrdType → Bool × Bool × Bool × Bool
  | OrdType.LIMIT => (false, true, true, true)
  | OrdType.MARKET => (false, false, true, true)
  | OrdType.CANCEL => (true, false, false, false)
  | OrdType.MODIFY => (true, true, true, false)

/-- Spec §4.1 / C8 price-step formula, written from the spec's words:
`round((old + z*volatility*sqrt(tick_time) + drift*tick_time)/tick_size) * tick_size`. -/
def specNewPrice (curr z vol sqrtTT drift tt ts : ℚ) : ℚ :=
  (pyRound ((curr + z * vol * sqrtTT + drift * tt) / ts) : ℚ) * ts

/-- The C6 pricing-distance policy with numpy's actual *scale* (mean)
parameterization: a draw with scale `β` is `β * E` for a unit-exponential `E`. -/
def specLimitPriceScale (e curr vol vs ts : ℚ) (a : OrdAction) : ℚ :=
  let distance := pyMax (1/10000) (vol * vs) * e
  let price := if a = OrdAction.BUY then curr * (1 - distance) else curr * (1 + distance)
  (pyRound (price / ts) : ℚ) * ts

/-- The C6 pricing-distance policy as the claim words it: `distance` drawn
from an exponential distribution with *rate* `λ = max(0.0001, vol*vs)`.
By inverse-transform sampling, a rate-`λ` draw is `E / λ` for a
unit-exponential `E` (numpy instead computes `scale * E`). -/
def specLimitPriceRate (e curr vol vs ts : ℚ) (a : OrdAction) : ℚ :=
  let rate := pyMax (1/10000) (vol * vs)
  let distance := e / rate
  let price := if a = OrdAction.BUY then curr * (1 - distance) else curr * (1 + distance)
  (pyRound (price / ts) : ℚ) * ts

/-- Erase the uuid-derived content of an order: the id token and the value
(but not the presence) of `ref_id`. -/
def stripId (o : Order) : Order :=
  { o with id := 0, ref_id := o.ref_id.map (fun _ => 0) }

/-- A trivial concrete numpy oracle for witnesses and counterexamples. -/
def np0 : Np :=
  { sqrt := fun q => q
    log := fun q => q
    normal := fun _ => 0
    expStd := fun _ => 0
    lognorm := fun _ _ _ => 0
    choice := fun _ => 0 }

/-- A concrete uuid stream. -/
def uuidA : ℕ → ℕ := fun n => n

/-- A second concrete uuid stream, differing from `uuidA` everywhere. -/
def uuidB : ℕ → ℕ := fun n => n + 1

/-- A numpy oracle whose categorical draws always pick index 3 (MODIFY / SELL). -/
def npM : Np := { np0 with choice := fun _ => 3 }

/-- A numpy oracle whose standard-exponential draws are 1. -/
def npC6 : Np := { np0 with expStd := fun _ => 1 }

/-- A concrete instrument with volatility 2 whose `tick_size` attribute has
been stored by a previous `next_order` call. -/
def iC6 : Instrument := { Instrument.init "X" 100 2 0 with tick_size := some 1 }

/-- An instrument whose `tick_count` attribute has been patched in from
outside (the only way `Instrument.tick` can get past `self.tick_count += 1`,
since no code in the module ever initializes it). -/
def iA : Instrument := { Instrument.init "A" 170 1 (1/100) with tick_count := some 0 }

/-- A second externally patched instrument. -/
def iB : Instrument := { Instrument.init "B" 280 1 (1/100) with tick_count := some 0 }

/-- Every order in the list has the id the uuid stream assigns to its position. -/
def IdsFrom (u : ℕ → ℕ) (c0 : ℕ) (os : List Order) : Prop :=
  ∀ (j : ℕ) (o : Order), os[j]? = some o → o.id = u (c0 + j)

/-- Every history entry is a previously emitted non-CANCEL order, keyed by its id. -/
def HistFrom (os : List Order) (i : Instrument) : Prop :=
  ∀ q ∈ i.history, q.2 ∈ os ∧ q.1 = q.2.id ∧ q.2.type ≠ OrdType.CANCEL

/-- Every CANCEL/MODIFY order references the id of an earlier, non-CANCEL order. -/
def RefsOK (os : List Order) : Prop :=
  ∀ (j : ℕ) (o : Order), os[j]? = some o →
    (o.type = OrdType.CANCEL ∨ o.type = OrdType.MODIFY) →
    ∃ r, o.ref_id = some r ∧
      ∃ (j2 : ℕ) (o2 : Order), j2 < j ∧ os[j2]? = some o2
        ∧ o2.id = r ∧ o2.type ≠ OrdType.CANCEL

/-- Full C7 property: each CANCEL/MODIFY references an earlier non-CANCEL
order of the same instrument, and no CANCEL order in the sequence carries the
referenced id. -/
def RefsOKStrong (os : List Order) : Prop :=
  ∀ (j : ℕ) (o : Order), os[j]? = some o →
    (o.type = OrdType.CANCEL ∨ o.type = OrdType.MODIFY) →
    ∃ r, o.ref_id = some r
      ∧ (∃ (j2 : ℕ) (o2 : Order), j2 < j ∧ os[j2]? = some o2
          ∧ o2.id = r ∧ o2.type ≠ OrdType.CANCEL)
      ∧ ∀ (j3 : ℕ) (o3 : Order), os[j3]? = some o3 → o3.type = OrdType.CANCEL → o3.id ≠ r

/-- Lockstep relation between the states of two runs that share the numpy
stream but draw uuids from different streams: all scalar fields agree, the
histories agree order for order up to ids, and every history key is a uuid
the respective stream produced at an earlier step. -/
structure SimRel (u1 u2 : ℕ → ℕ) (c0 t : ℕ) (i1 i2 : Instrument) : Prop where
  sym : i1.symbol = i2.symbol
  pr : i1.curr_price = i2.curr_price
  vol : i1.volatility = i2.volatility
  dr : i1.drift = i2.drift
  tsz : i1.tick_size = i2.tick_size
  tcnt : i1.tick_count = i2.tick_count
  hist : i1.history.map (fun p => stripId p.2) = i2.history.map (fun p => stripId p.2)
  keys1 : ∀ q ∈ i1.history, ∃ t2, t2 < t ∧ q.1 = u1 (c0 + t2)
  keys2 : ∀ q ∈ i2.history, ∃ t2, t2 < t ∧ q.1 = u2 (c0 + t2)

theorem pyMax_eq_max (a b : ℚ) : pyMax a b = max a b := by
  unfold pyMax
  split
  · exact (max_eq_right (by assumption)).symm
  · exact (max_eq_left (le_of_not_le (by assumption))).symm

theorem pyMin_eq_min (a b : ℚ) : pyMin a b = min a b := by
  unfold pyMin
  split
  · exact (min_eq_left (by assumption)).symm
  · exact (min_eq_right (le_of_not_le (by assumption))).symm

/-- C2: `Instrument.tick` on any freshly constructed instrument raises
`AttributeError`: `self.tick_count += 1` (line 156) reads the `tick_count`
attribute, which `Instrument.__init__` (lines 66-71) never creates.  The
claim's documented contract (tick returns an Order without raising) fails on
every fresh instrument, for every oracle, stream position and tick
parameters. -/
theorem C2_instrument_tick_raises (np : Np) (u : ℕ → ℕ) (symbol : String)
    (init_price volatility drift : ℚ) (k c : ℕ) (ts tt : ℚ) :
    Instrument.tick np u (Instrument.init symbol init_price volatility drift) k c ts tt
      = Except.error PyErr.attributeError := rfl

/-- C1: `Exchange.tick()` never returns a sequence of orders.  On an exchange
of freshly constructed instruments it raises `AttributeError` (propagating the
`tick_count` bug of `Instrument.tick`); and even on instruments patched from
outside with a `tick_count` attribute, the loop emits one order per instrument
into the exchange history (2 orders for 2 instruments) but `return order`
yields only the single order of the last instrument ("B"), per its
`-> Order` annotation — not the K-order sequence the claim describes. -/
theorem C1_exchange_tick_shape :
    (Exchange.tick np0 uuidA
        (Exchange.init [Instrument.init "AAPL" 170 (2/10000) (1/10000)]) 0 0
      = Except.error PyErr.attributeError)
    ∧ ((Exchange.tick np0 uuidA (Exchange.init [iA, iB]) 0 0).toOption.map
        (fun r => (r.1.symbol, r.2.1.history.length)) = some ("B", 2)) :=
  ⟨rfl, by decide⟩

/-- C5 counterexample: construction performs no validation at all.
`Instrument("X", init_price=-170)` succeeds and stores the non-positive
price, and `Exchange([])` succeeds with an empty instrument list — no
`ConfigurationError` (or any other exception) is raised at construction. -/
theorem C5_counterexample_no_validation :
    (Instrument.init "X" (-170) 1 (1/100)).curr_price = -170
    ∧ (Exchange.init []).instruments = ([] : List Instrument) :=
  ⟨rfl, rfl⟩

/-- C5 amended: `Instrument.__init__` and `Exchange.__init__` are pure field
assignments: they accept every argument (non-positive prices, empty lists
included), store it unchanged, and can raise nothing; `Exchange` takes no
`tick_size`/`tick_time` parameters, fixing both to 0.01. -/
theorem C5_amended_constructors_total (symbol : String) (init_price volatility drift : ℚ)
    (l : List Instrument) :
    (Instrument.init symbol init_price volatility drift).curr_price = init_price
    ∧ (Instrument.init symbol init_price volatility drift).symbol = symbol
    ∧ (Instrument.init symbol init_price volatility drift).volatility = volatility
    ∧ (Instrument.init symbol init_price volatility drift).drift = drift
    ∧ (Instrument.init symbol init_price volatility drift).history = []
    ∧ (Exchange.init l).instruments = l
    ∧ (Exchange.init l).tick_size = 1/100
    ∧ (Exchange.init l).tick_time = 1/100
    ∧ (Exchange.init l).tick_count = 0 :=
  ⟨rfl, rfl, rfl, rfl, rfl, rfl, rfl, rfl, rfl⟩

/-- C8: after `update_price`, `curr_price` equals
`round((old + z*volatility*sqrt(tick_time) + drift*tick_time)/tick_size) * tick_size`
where `z` is the standard-normal draw made by the call, and in particular it
is an integer multiple of `tick_size`. -/
theorem C8_update_price_formula (np : Np) (k : ℕ) (i : Instrument) (ts tt : ℚ) :
    ((update_price np k i ts tt).1.curr_price
        = specNewPrice i.curr_price (np.normal k) i.volatility (np.sqrt tt) i.drift tt ts)
    ∧ ∃ m : ℤ, (update_price np k i ts tt).1.curr_price = (m : ℚ) * ts := by
  constructor
  · show (pyRound ((i.curr_price + (np.normal k * (i.volatility * np.sqrt tt) + i.drift * tt)) / ts) : ℚ) * ts = specNewPrice i.curr_price (np.normal k) i.volatility (np.sqrt tt) i.drift tt ts
    rw [specNewPrice]
    have h : i.curr_price + (np.normal k * (i.volatility * np.sqrt tt) + i.drift * tt)
        = i.curr_price + np.normal k * i.volatility * np.sqrt tt + i.drift * tt := by ring
    rw [h]
  · exact ⟨pyRound ((i.curr_price + (np.normal k * (i.volatility * np.sqrt tt) + i.drift * tt)) / ts), rfl⟩

/-- C9: whenever the instrument's history is empty (in particular for the
first order it ever emits), `next_order` forces the order type to LIMIT,
regardless of every random draw. -/
theorem C9_first_order_limit (np : Np) (u : ℕ → ℕ) (i : Instrument) (k c : ℕ)
    (ts tt : ℚ) (h : i.history = []) :
    ((next_order np u i k c ts tt).1).type = OrdType.LIMIT := by
  simp [next_order, finishOrder, h]

/-- Witness for C9 at a concrete fresh instrument. -/
theorem C9_first_order_limit_witness :
    (Instrument.init "AAPL" 170 (2/10000) (1/10000)).history = []
    ∧ ((next_order np0 uuidA (Instrument.init "AAPL" 170 (2/10000) (1/10000)) 0 0
        (1/100) (1/100)).1).type = OrdType.LIMIT :=
  ⟨rfl, C9_first_order_limit np0 uuidA _ 0 0 (1/100) (1/100) rfl⟩

/-- C6 amended: `generate_limit_price` equals the spec's pricing-distance
policy with numpy's actual parameterization: `distance` is an exponential
draw with *scale* (mean) `max(0.0001, volatility*volatility_scale)` — i.e.
`scale * E` for a unit exponential `E` — then
`price = curr_price * (1 ∓ distance)` by action, quantized as
`round(price/tick_size) * tick_size`. -/
theorem C6_amended_price_formula (np : Np) (k : ℕ) (i : Instrument) (a : OrdAction)
    (vs ts : ℚ) :
    generate_limit_price np k { i with tick_size := some ts } a vs
      = some (specLimitPriceScale (np.expStd k) i.curr_price i.volatility vs ts a, k + 1) :=
  rfl

/-- C6 counterexample: the claim says `distance` is exponential with *rate*
`max(0.0001, volatility * volatility_scale)`; the code passes that quantity
to `np.random.exponential`, whose parameter is the *scale* (mean) `β = 1/λ`.
A rate-`λ` draw obtained from a unit exponential `E` is `E/λ`, while numpy
computes `β*E`.  With `volatility = 2`, `curr_price = 100`, `tick_size = 1`,
action SELL and `E = 1`, the code yields price 300 while the claim's law
yields 150. -/
theorem C6_counterexample_rate_vs_scale :
    generate_limit_price npC6 0 iC6 OrdAction.SELL 1 = some (300, 1)
    ∧ specLimitPriceRate (npC6.expStd 0) iC6.curr_price iC6.volatility 1 1 OrdAction.SELL = 150
    ∧ (300 : ℚ) ≠ 150 := by
  refine ⟨?_, ?_, by norm_num⟩
  · simp only [generate_limit_price, npExponential, npC6, iC6, np0, pyMax, pyRound,
      Instrument.init, Option.map, reduceCtorEq, if_false, reduceIte]
    norm_num [Int.fract]
  · simp only [specLimitPriceRate, npC6, iC6, np0, Instrument.init, pyMax, pyRound,
      reduceCtorEq, if_false, reduceIte]
    norm_num [Int.fract]

/-- C10: for every order type, every draw and every integer
`base_size ≥ 1` (the code only ever uses the default 100), the sizer's result
is a positive integer in `[1, base_size * 10]`. -/
theorem C10_order_size_bounds (np : Np) (k : ℕ) (t : OrdType) (b : ℤ) (hb : 1 ≤ b) :
    1 ≤ (generate_order_size np k t (b : ℚ)).1
    ∧ (generate_order_size np k t (b : ℚ)).1 ≤ (b : ℚ) * 10
    ∧ ∃ m : ℤ, (generate_order_size np k t (b : ℚ)).1 = (m : ℚ) ∧ 1 ≤ m := by
  have hbq : (1 : ℚ) ≤ (b : ℚ) := by exact_mod_cast hb
  have hb10 : (1 : ℚ) ≤ (b : ℚ) * 10 := by linarith
  set s : ℤ := pyInt (np.lognorm k (if t = OrdType.MARKET then np.log (b : ℚ) + 1/2 else np.log (b : ℚ)) (if t = OrdType.MARKET then 4/5 else 6/5)) with hs
  have hval : (generate_order_size np k t (b : ℚ)).1 = pyMax 1 (pyMin (s : ℚ) ((b : ℚ) * 10)) := rfl
  rw [hval, pyMax_eq_max, pyMin_eq_min]
  have hcast : min (s : ℚ) ((b : ℚ) * 10) = ((min s (b * 10) : ℤ) : ℚ) := by
    push_cast
    rfl
  refine ⟨le_max_left _ _, max_le hb10 (min_le_right _ _), max 1 (min s (b * 10)), ?_, le_max_left _ _⟩
  rw [hcast]
  push_cast
  rfl

/-- Witness for C10 at `base_size = 100` with the trivial oracle. -/
theorem C10_order_size_bounds_witness :
    (1 : ℤ) ≤ 100
    ∧ (1 ≤ (generate_order_size np0 0 OrdType.MARKET ((100 : ℤ) : ℚ)).1
       ∧ (generate_order_size np0 0 OrdType.MARKET ((100 : ℤ) : ℚ)).1 ≤ ((100 : ℤ) : ℚ) * 10
       ∧ ∃ m : ℤ, (generate_order_size np0 0 OrdType.MARKET ((100 : ℤ) : ℚ)).1 = (m : ℚ) ∧ 1 ≤ m) :=
  ⟨by decide, C10_order_size_bounds np0 0 OrdType.MARKET 100 (by decide)⟩

/-- C4 counterexample: on the Order *record*, a MODIFY order populates
`action`: `next_order`'s MODIFY branch (line 135) samples `ord_action` (to
price the modification) and passes it into the `Order` (line 146), although
the §6 table prescribes no action for MODIFY.  Concretely, with an oracle
whose categorical draws pick index 3, the second order of a run is a MODIFY
whose `(ref_id, price, qty, action)` population is `(true, true, true, true)`,
while the table prescribes `(true, true, true, false)`. -/
theorem C4_counterexample_modify_action_populated :
    ((run npM uuidA 2 (Instrument.init "AAPL" 170 1 (1/100)) 0 0 (1/100) (1/100)).1.map
        (fun o => (o.type, recordPopulated o))).get? 1
      = some (OrdType.MODIFY, (true, true, true, true))
    ∧ specTable OrdType.MODIFY = (true, true, true, false) :=
  ⟨by decide, rfl⟩

/-- C4 amended: for every order `next_order` emits (from any instrument
state), the *serialized* form populates exactly the fields of the §6 table
(`Order.__str__` always emits the `id`, `ref_id`, `symbol`, `type` keys, with
`ref_id` null for LIMIT/MARKET, and omits `action` for MODIFY); on the Order
record the population matches the table except that MODIFY additionally
carries the sampled `action`. -/
theorem C4_amended_field_population (np : Np) (u : ℕ → ℕ) (i : Instrument) (k c : ℕ)
    (ts tt : ℚ) :
    serialPopulated (next_order np u i k c ts tt).1
        = specTable ((next_order np u i k c ts tt).1).type
    ∧ recordPopulated (next_order np u i k c ts tt).1
        = (if ((next_order np u i k c ts tt).1).type = OrdType.MODIFY
           then (true, true, true, true)
           else specTable ((next_order np u i k c ts tt).1).type) := by
  rcases hE : i.history with _ | ⟨p, rest⟩
  · simp [next_order, finishOrder, hE, serialPopulated, serializeOrder, hasKeyNonNull,
      isNull, jNum, jRef, jAction, recordPopulated, specTable]
  · rcases hT : drawOrdType (np.choice k) with _ | _ | _ | _ <;>
      simp [next_order, finishOrder, hE, hT, serialPopulated, serializeOrder, hasKeyNonNull,
        isNull, jNum, jRef, jAction, recordPopulated, specTable]

lemma mem_dictInsert {h : List (ℕ × Order)} {key : ℕ} {o : Order} :
    ∀ q ∈ dictInsert h key o, q ∈ h ∨ q = (key, o) := by
  intro q hq
  unfold dictInsert at hq
  split at hq
  · rcases List.mem_map.1 hq with ⟨p, hp, he⟩
    by_cases hk : (p.1 == key) = true
    · right
      rw [← he]
      simp [hk]
    · left
      rw [← he]
      simp only [hk, if_false]
      exact hp
  · rcases List.mem_append.1 hq with h1 | h1
    · left
      exact h1
    · right
      simpa using h1

lemma getD_mem_of_ne_nil {l : List ℕ} (hl : l ≠ []) (n : ℕ) :
    l.getD (n % l.length) 0 ∈ l := by
  have hlen : 0 < l.length := List.length_pos.2 hl
  have hmod : n % l.length < l.length := Nat.mod_lt _ hlen
  have h : l[n % l.length]? = some l[n % l.length] := List.getElem?_eq_getElem hmod
  rw [List.getD_eq_getElem?_getD, h]
  exact List.getElem_mem hmod

lemma update_price_history (np : Np) (k : ℕ) (i : Instrument) (ts tt : ℚ) :
    ((update_price np k i ts tt).1).history = i.history := rfl

lemma update_price_snd (np : Np) (k : ℕ) (i : Instrument) (ts tt : ℚ) :
    (update_price np k i ts tt).2 = k + 1 := rfl

lemma next_order_cases (np : Np) (u : ℕ → ℕ) (i : Instrument) (k c : ℕ) (ts tt : ℚ) :
    ((next_order np u i k c ts tt).1).id = u c
    ∧ (next_order np u i k c ts tt).2.2.2 = c + 1
    ∧ (∀ q ∈ ((next_order np u i k c ts tt).2.1).history,
        q ∈ i.history ∨ (q = (u c, (next_order np u i k c ts tt).1)
                          ∧ ((next_order np u i k c ts tt).1).type ≠ OrdType.CANCEL))
    ∧ ((((next_order np u i k c ts tt).1).type = OrdType.CANCEL
        ∨ ((next_order np u i k c ts tt).1).type = OrdType.MODIFY) →
        ∃ q ∈ i.history, ((next_order np u i k c ts tt).1).ref_id = some q.1) := by
  rcases hE : i.history with _ | ⟨p, rest⟩
  · simp only [next_order, hE, List.isEmpty_nil, if_true, if_false, finishOrder, reduceIte,
      reduceCtorEq, update_price_history, update_price_snd, not_false_eq_true, true_and,
      and_true, ne_eq]
    refine ⟨?_, ?_⟩
    · intro q hq
      rcases mem_dictInsert q hq with h1 | h1
      · exact Or.inl h1
      · exact Or.inr h1
    · simp
  · rcases hT : drawOrdType (np.choice k) with _ | _ | _ | _ <;>
      simp only [next_order, hE, List.isEmpty_cons, if_false, if_true, Bool.false_eq_true, hT,
        finishOrder, reduceIte, reduceCtorEq, ne_eq, update_price_history,
        update_price_snd, not_false_eq_true, true_and, and_true]
    · -- LIMIT
      refine ⟨?_, ?_⟩
      · intro q hq
        rcases mem_dictInsert q hq with h1 | h1
        · exact Or.inl h1
        · exact Or.inr h1
      · simp
    · -- MARKET
      refine ⟨?_, ?_⟩
      · intro q hq
        rcases mem_dictInsert q hq with h1 | h1
        · exact Or.inl h1
        · exact Or.inr h1
      · simp
    · -- CANCEL
      refine ⟨?_, ?_⟩
      · intro q hq
        exact Or.inl hq
      · intro _
        have hne : ((p :: rest).map Prod.fst) ≠ [] := by simp
        have hm := getD_mem_of_ne_nil hne (np.choice (k + 1))
        rcases List.mem_map.1 hm with ⟨q, hq, hq1⟩
        exact ⟨q, hq, by rw [hq1]⟩
    · -- MODIFY
      refine ⟨?_, ?_⟩
      · intro q hq
        rcases mem_dictInsert q hq with h1 | h1
        · exact Or.inl h1
        · exact Or.inr h1
      · intro _
        have hne : ((p :: rest).map Prod.fst) ≠ [] := by simp
        have hm := getD_mem_of_ne_nil hne (np.choice (k + 1))
        rcases List.mem_map.1 hm with ⟨q, hq, hq1⟩
        exact ⟨q, hq, by rw [hq1]⟩

lemma run_invariant (np : Np) (u : ℕ → ℕ) (ts tt : ℚ) (c0 : ℕ) :
    ∀ (n : ℕ) (i : Instrument) (k c : ℕ) (os0 : List Order),
      c = c0 + os0.length → IdsFrom u c0 os0 → HistFrom os0 i → RefsOK os0 →
      IdsFrom u c0 (os0 ++ (run np u n i k c ts tt).1)
      ∧ HistFrom (os0 ++ (run np u n i k c ts tt).1) (run np u n i k c ts tt).2.1
      ∧ RefsOK (os0 ++ (run np u n i k c ts tt).1) := by
  intro n
  induction n with
  | zero =>
    intro i k c os0 hc hids hhist hrefs
    simp only [run, List.append_nil]
    exact ⟨hids, hhist, hrefs⟩
  | succ m ih =>
    intro i k c os0 hc hids hhist hrefs
    obtain ⟨hid, hcnt, hmem, href⟩ := next_order_cases np u i k c ts tt
    set s := next_order np u i k c ts tt with hsdef
    -- single-step extensions
    have hids' : IdsFrom u c0 (os0 ++ [s.1]) := by
      intro j o hj
      by_cases hlt : j < os0.length
      · rw [List.getElem?_append_left hlt] at hj
        exact hids j o hj
      · have hjl : j = os0.length := by
          have hlen : j < (os0 ++ [s.1]).length := (List.getElem?_eq_some_iff.1 hj).1
          simp at hlen
          omega
        subst hjl
        rw [List.getElem?_concat_length] at hj
        cases hj
        rw [hid, hc]
    have hhist' : HistFrom (os0 ++ [s.1]) s.2.1 := by
      intro q hq
      rcases hmem q hq with h1 | ⟨h1, h2⟩
      · obtain ⟨hm, hk, ht⟩ := hhist q h1
        exact ⟨List.mem_append_left _ hm, hk, ht⟩
      · subst h1
        exact ⟨List.mem_append_right _ (by simp), by rw [hid], by rw [hsdef] at h2 ⊢; exact h2⟩
    have hrefs' : RefsOK (os0 ++ [s.1]) := by
      intro j o hj hty
      by_cases hlt : j < os0.length
      · rw [List.getElem?_append_left hlt] at hj
        obtain ⟨r, hr, j2, o2, hj2, hg2, hi2, ht2⟩ := hrefs j o hj hty
        exact ⟨r, hr, j2, o2, hj2, by rw [List.getElem?_append_left (lt_trans hj2 hlt)]; exact hg2, hi2, ht2⟩
      · have hjl : j = os0.length := by
          have hlen : j < (os0 ++ [s.1]).length := (List.getElem?_eq_some_iff.1 hj).1
          simp at hlen
          omega
        subst hjl
        rw [List.getElem?_concat_length] at hj
        cases hj
        obtain ⟨q, hqmem, hqref⟩ := href hty
        obtain ⟨hm, hk, ht⟩ := hhist q hqmem
        obtain ⟨j2, hj2⟩ := List.getElem?_of_mem hm
        have hj2lt : j2 < os0.length := (List.getElem?_eq_some_iff.1 hj2).1
        refine ⟨q.1, hqref, j2, q.2, hj2lt, ?_, hk.symm, ht⟩
        rw [List.getElem?_append_left hj2lt]
        exact hj2
    have hc' : c + 1 = c0 + (os0 ++ [s.1]).length := by
      simp only [List.length_append, List.length_cons, List.length_nil]
      omega
    have hrun : run np u (m + 1) i k c ts tt
        = (s.1 :: (run np u m s.2.1 s.2.2.1 s.2.2.2 ts tt).1,
           (run np u m s.2.1 s.2.2.1 s.2.2.2 ts tt).2) := rfl
    have hcc : s.2.2.2 = c + 1 := hcnt
    obtain ⟨ha, hb, hcr⟩ := ih s.2.1 s.2.2.1 s.2.2.2 (os0 ++ [s.1]) (by rw [hcc]; exact hc')
      hids' hhist' hrefs'
    rw [hrun]
    have happ : os0 ++ s.1 :: (run np u m s.2.1 s.2.2.1 s.2.2.2 ts tt).1
        = (os0 ++ [s.1]) ++ (run np u m s.2.1 s.2.2.1 s.2.2.2 ts tt).1 := by
      simp
    constructor
    · rw [happ]
      exact ha
    constructor
    · rw [happ]
      exact hb
    · rw [happ]
      exact hcr

/-- C7: in any run of `next_order` from a fresh instrument (with injective
uuid draws), every CANCEL/MODIFY order's `ref_id` is the id of an order
emitted earlier by the same instrument, the referenced order is never itself
a CANCEL (no CANCEL in the whole run carries the referenced id), and the
instrument's history never contains a CANCEL order. -/
theorem C7_ref_id_invariant (np : Np) (u : ℕ → ℕ) (hinj : Function.Injective u)
    (symbol : String) (p vol dr : ℚ) (n k c : ℕ) (ts tt : ℚ) :
    RefsOKStrong (run np u n (Instrument.init symbol p vol dr) k c ts tt).1
    ∧ ∀ q ∈ ((run np u n (Instrument.init symbol p vol dr) k c ts tt).2.1).history,
        q.2 ∈ (run np u n (Instrument.init symbol p vol dr) k c ts tt).1
        ∧ q.2.type ≠ OrdType.CANCEL := by
  obtain ⟨hids, hhist, hrefs⟩ :=
    run_invariant np u ts tt c n (Instrument.init symbol p vol dr) k c []
      (by simp) (by intro j o h; simp at h)
      (by intro q hq; simp [Instrument.init] at hq)
      (by intro j o h; simp at h)
  rw [List.nil_append] at hids hhist hrefs
  refine ⟨?_, ?_⟩
  · intro j o hj hty
    obtain ⟨r, hr, j2, o2, hj2, hg2, hi2, ht2⟩ := hrefs j o hj hty
    refine ⟨r, hr, ⟨j2, o2, hj2, hg2, hi2, ht2⟩, ?_⟩
    intro j3 o3 hg3 hty3 heq
    have h3 : o3.id = u (c + j3) := hids j3 o3 hg3
    have h2 : o2.id = u (c + j2) := hids j2 o2 hg2
    have hcc : c + j3 = c + j2 := hinj (by rw [← h3, ← h2, heq, hi2])
    have hj32 : j3 = j2 := by omega
    subst hj32
    rw [hg2] at hg3
    cases hg3
    exact ht2 hty3
  · intro q hq
    obtain ⟨hm, _, ht⟩ := hhist q hq
    exact ⟨hm, ht⟩

/-- Witness for C7 at the identity uuid stream and a concrete 3-step run. -/
theorem C7_ref_id_invariant_witness :
    Function.Injective uuidA
    ∧ (RefsOKStrong (run np0 uuidA 3 (Instrument.init "AAPL" 170 (2/10000) (1/10000))
          0 0 (1/100) (1/100)).1
       ∧ ∀ q ∈ ((run np0 uuidA 3 (Instrument.init "AAPL" 170 (2/10000) (1/10000))
            0 0 (1/100) (1/100)).2.1).history,
          q.2 ∈ (run np0 uuidA 3 (Instrument.init "AAPL" 170 (2/10000) (1/10000))
            0 0 (1/100) (1/100)).1
          ∧ q.2.type ≠ OrdType.CANCEL) :=
  ⟨fun _ _ h => h, C7_ref_id_invariant np0 uuidA (fun _ _ h => h) "AAPL" 170 (2/10000) (1/10000)
    3 0 0 (1/100) (1/100)⟩

lemma dictInsert_of_fresh {h : List (ℕ × Order)} {key : ℕ} {o : Order}
    (hf : ∀ q ∈ h, q.1 ≠ key) :
    dictInsert h key o = h ++ [(key, o)] := by
  unfold dictInsert
  rw [if_neg]
  intro hc
  rcases List.any_eq_true.1 hc with ⟨p, hp, hpk⟩
  exact hf p hp (by simpa using hpk)

lemma generate_limit_price_congr (np : Np) (k : ℕ) (a : OrdAction) (vs : ℚ)
    {j1 j2 : Instrument} (hts : j1.tick_size = j2.tick_size)
    (hv : j1.volatility = j2.volatility) (hp : j1.curr_price = j2.curr_price) :
    generate_limit_price np k j1 a vs = generate_limit_price np k j2 a vs := by
  unfold generate_limit_price
  rw [hts, hv, hp]

lemma update_price_curr_congr (np : Np) (k : ℕ) (ts tt : ℚ) {j1 j2 : Instrument}
    (hp : j1.curr_price = j2.curr_price) (hv : j1.volatility = j2.volatility)
    (hd : j1.drift = j2.drift) :
    ((update_price np k j1 ts tt).1).curr_price = ((update_price np k j2 ts tt).1).curr_price := by
  unfold update_price
  simp only [hp, hv, hd]

lemma next_order_rel (np : Np) (u1 u2 : ℕ → ℕ) (h1inj : Function.Injective u1)
    (h2inj : Function.Injective u2) (c0 t : ℕ) (i1 i2 : Instrument) (k : ℕ) (ts tt : ℚ)
    (hrel : SimRel u1 u2 c0 t i1 i2) :
    stripId (next_order np u1 i1 k (c0 + t) ts tt).1
      = stripId (next_order np u2 i2 k (c0 + t) ts tt).1
    ∧ SimRel u1 u2 c0 (t + 1) (next_order np u1 i1 k (c0 + t) ts tt).2.1
        (next_order np u2 i2 k (c0 + t) ts tt).2.1
    ∧ (next_order np u1 i1 k (c0 + t) ts tt).2.2.1
      = (next_order np u2 i2 k (c0 + t) ts tt).2.2.1 := by
  have hlen : i1.history.length = i2.history.length := by
    have := congrArg List.length hrel.hist
    simpa using this
  have hfresh1 : ∀ q ∈ i1.history, q.1 ≠ u1 (c0 + t) := by
    intro q hq he
    obtain ⟨t2, ht2, hk⟩ := hrel.keys1 q hq
    have : c0 + t2 = c0 + t := h1inj (by rw [← hk, he])
    omega
  have hfresh2 : ∀ q ∈ i2.history, q.1 ≠ u2 (c0 + t) := by
    intro q hq he
    obtain ⟨t2, ht2, hk⟩ := hrel.keys2 q hq
    have : c0 + t2 = c0 + t := h2inj (by rw [← hk, he])
    omega
  obtain ⟨hsym, hpr, hvol, hdr, htsz, htcnt, hhist, hkeys1, hkeys2⟩ := hrel
  rcases hE1 : i1.history with _ | ⟨p1, r1⟩
  · have hE2 : i2.history = [] := by
      rcases hE2' : i2.history with _ | ⟨p2, r2⟩
      · rfl
      · rw [hE1, hE2'] at hlen
        simp at hlen
    simp only [next_order, hE1, hE2, List.isEmpty_nil, if_true, if_false, finishOrder,
      reduceIte, reduceCtorEq, update_price, generate_limit_price, generate_order_size,
      npExponential, Option.map, Option.getD, not_false_eq_true,
      true_and, and_true, ne_eq, hsym, hpr, hvol, hdr, htcnt]
    refine ⟨by simp [stripId], ?_⟩
    refine ⟨rfl, rfl, rfl, rfl, rfl, rfl, by simp [dictInsert, stripId], ?_, ?_⟩
    · intro q hq
      simp only [dictInsert, List.any_nil, Bool.false_eq_true, if_false, List.nil_append,
        List.mem_singleton] at hq
      exact ⟨t, Nat.lt_succ_self t, by rw [hq]⟩
    · intro q hq
      simp only [dictInsert, List.any_nil, Bool.false_eq_true, if_false, List.nil_append,
        List.mem_singleton] at hq
      exact ⟨t, Nat.lt_succ_self t, by rw [hq]⟩
  · rcases hE2' : i2.history with _ | ⟨p2, r2⟩
    · exfalso
      rw [hE1, hE2'] at hlen
      simp at hlen
    rw [hE1] at hfresh1 hkeys1 hhist
    rw [hE2'] at hfresh2 hkeys2 hhist
    have hins1 : dictInsert (p1 :: r1) (u1 (c0 + t))
        = fun o => (p1 :: r1) ++ [(u1 (c0 + t), o)] := by
      funext o
      exact dictInsert_of_fresh hfresh1
    have hins2 : dictInsert (p2 :: r2) (u2 (c0 + t))
        = fun o => (p2 :: r2) ++ [(u2 (c0 + t), o)] := by
      funext o
      exact dictInsert_of_fresh hfresh2
    have hlen' : ((p1 :: r1).map Prod.fst).length = ((p2 :: r2).map Prod.fst).length := by
      rw [hE1, hE2'] at hlen
      simp only [List.length_map]
      exact hlen
    rcases hT : drawOrdType (np.choice k) with _ | _ | _ | _ <;>
      simp only [next_order, hE1, hE2', hT, List.isEmpty_cons, if_true, if_false,
        Bool.false_eq_true, finishOrder, reduceIte, reduceCtorEq, update_price,
        generate_limit_price, generate_order_size, npExponential, Option.map, Option.getD,
        not_false_eq_true, true_and, and_true, ne_eq, hsym, hpr, hvol, hdr, htcnt,
        hins1, hins2, hlen']
    · -- LIMIT
      refine ⟨by simp [stripId], ?_⟩
      refine ⟨rfl, rfl, rfl, rfl, rfl, rfl, ?_, ?_, ?_⟩
      · simp only [List.map_append, hhist, List.map_cons, List.map_nil]
        simp [stripId]
      · intro q hq
        rcases List.mem_append.1 hq with h | h
        · obtain ⟨t2, ht2, hk⟩ := hkeys1 q h
          exact ⟨t2, by omega, hk⟩
        · exact ⟨t, Nat.lt_succ_self t, by rw [List.mem_singleton.1 h]⟩
      · intro q hq
        rcases List.mem_append.1 hq with h | h
        · obtain ⟨t2, ht2, hk⟩ := hkeys2 q h
          exact ⟨t2, by omega, hk⟩
        · exact ⟨t, Nat.lt_succ_self t, by rw [List.mem_singleton.1 h]⟩
    · -- MARKET
      refine ⟨by simp [stripId], ?_⟩
      refine ⟨rfl, rfl, rfl, rfl, rfl, rfl, ?_, ?_, ?_⟩
      · simp only [List.map_append, hhist, List.map_cons, List.map_nil]
        simp [stripId]
      · intro q hq
        rcases List.mem_append.1 hq with h | h
        · obtain ⟨t2, ht2, hk⟩ := hkeys1 q h
          exact ⟨t2, by omega, hk⟩
        · exact ⟨t, Nat.lt_succ_self t, by rw [List.mem_singleton.1 h]⟩
      · intro q hq
        rcases List.mem_append.1 hq with h | h
        · obtain ⟨t2, ht2, hk⟩ := hkeys2 q h
          exact ⟨t2, by omega, hk⟩
        · exact ⟨t, Nat.lt_succ_self t, by rw [List.mem_singleton.1 h]⟩
    · -- CANCEL
      refine ⟨by simp [stripId], ?_⟩
      exact ⟨rfl, rfl, rfl, rfl, rfl, rfl, hhist,
        fun q hq => (hkeys1 q hq).imp (fun t2 h => ⟨by omega, h.2⟩),
        fun q hq => (hkeys2 q hq).imp (fun t2 h => ⟨by omega, h.2⟩)⟩
    · -- MODIFY
      refine ⟨by simp [stripId], ?_⟩
      refine ⟨rfl, rfl, rfl, rfl, rfl, rfl, ?_, ?_, ?_⟩
      · simp only [List.map_append, hhist, List.map_cons, List.map_nil]
        simp [stripId]
      · intro q hq
        rcases List.mem_append.1 hq with h | h
        · obtain ⟨t2, ht2, hk⟩ := hkeys1 q h
          exact ⟨t2, by omega, hk⟩
        · exact ⟨t, Nat.lt_succ_self t, by rw [List.mem_singleton.1 h]⟩
      · intro q hq
        rcases List.mem_append.1 hq with h | h
        · obtain ⟨t2, ht2, hk⟩ := hkeys2 q h
          exact ⟨t2, by omega, hk⟩
        · exact ⟨t, Nat.lt_succ_self t, by rw [List.mem_singleton.1 h]⟩

lemma run_rel (np : Np) (u1 u2 : ℕ → ℕ) (h1inj : Function.Injective u1)
    (h2inj : Function.Injective u2) (ts tt : ℚ) (c0 : ℕ) :
    ∀ (n : ℕ) (i1 i2 : Instrument) (k t : ℕ),
      SimRel u1 u2 c0 t i1 i2 →
      (run np u1 n i1 k (c0 + t) ts tt).1.map stripId
        = (run np u2 n i2 k (c0 + t) ts tt).1.map stripId := by
  intro n
  induction n with
  | zero =>
    intro i1 i2 k t _
    simp [run]
  | succ m ih =>
    intro i1 i2 k t hrel
    obtain ⟨ho, hrel', hk⟩ := next_order_rel np u1 u2 h1inj h2inj c0 t i1 i2 k ts tt hrel
    obtain ⟨-, hc1, -, -⟩ := next_order_cases np u1 i1 k (c0 + t) ts tt
    obtain ⟨-, hc2, -, -⟩ := next_order_cases np u2 i2 k (c0 + t) ts tt
    simp only [run, List.map_cons]
    rw [ho]
    congr 1
    rw [hk, hc1, hc2]
    exact ih _ _ _ (t + 1) hrel'

/-- C3 amended: two runs from the same fresh instrument that share the seeded
numpy stream — but draw their uuid4 ids from two arbitrary (injective)
streams — produce order sequences that agree in every field except the
uuid-derived ones: after erasing the id token and the value (not the
presence) of `ref_id`, the sequences are equal.  In particular lengths,
types, symbols, prices, quantities and actions all coincide. -/
theorem C3_amended_determinism_mod_ids (np : Np) (u1 u2 : ℕ → ℕ) (h1inj : Function.Injective u1)
    (h2inj : Function.Injective u2) (i : Instrument) (hfresh : i.history = [])
    (n k c : ℕ) (ts tt : ℚ) :
    (run np u1 n i k c ts tt).1.map stripId = (run np u2 n i k c ts tt).1.map stripId := by
  have h0 : SimRel u1 u2 c 0 i i := by
    refine ⟨rfl, rfl, rfl, rfl, rfl, rfl, rfl, ?_, ?_⟩
    · intro q hq
      rw [hfresh] at hq
      cases hq
    · intro q hq
      rw [hfresh] at hq
      cases hq
  exact run_rel np u1 u2 h1inj h2inj ts tt c n i i k 0 h0

/-- Witness for the amended C3 on two concrete uuid streams. -/
theorem C3_amended_determinism_mod_ids_witness :
    Function.Injective uuidA ∧ Function.Injective uuidB
    ∧ (Instrument.init "AAPL" 170 (2/10000) (1/10000)).history = []
    ∧ (run np0 uuidA 2 (Instrument.init "AAPL" 170 (2/10000) (1/10000))
        0 0 (1/100) (1/100)).1.map stripId
      = (run np0 uuidB 2 (Instrument.init "AAPL" 170 (2/10000) (1/10000))
        0 0 (1/100) (1/100)).1.map stripId :=
  ⟨fun _ _ h => h, fun a b h => by simp only [uuidB] at h; omega, rfl,
    C3_amended_determinism_mod_ids np0 uuidA uuidB (fun _ _ h => h) (fun a b h => by simp only [uuidB] at h; omega) _ rfl 2 0 0
      (1/100) (1/100)⟩

/-- C3 counterexample: order ids come from `uuid.uuid4()`, which draws from
the OS entropy pool and is not governed by the numpy seed.  Two runs with the
identical numpy stream (same seed, same configuration) but different uuid
draws produce order sequences that differ (in their `id` fields), so the
byte-identical-including-id claim fails. -/
theorem C3_counterexample_uuid_not_seeded :
    (run np0 uuidA 1 (Instrument.init "AAPL" 170 (2/10000) (1/10000)) 0 0 (1/100) (1/100)).1
      ≠ (run np0 uuidB 1 (Instrument.init "AAPL" 170 (2/10000) (1/10000)) 0 0 (1/100) (1/100)).1 := by
  decide

end MTrader

